import Mathlib

/-!
# Verification of the mgrs2latlong core (column detection + row conversion)

Shallow embedding of `src/main.rs` of `mgrs2latlong`, a tool that detects
which CSV column holds MGRS grid references and appends Latitude/Longitude
columns.

Modelling conventions:

* Rust `&str` values are Lean `String`s (sequences of Unicode scalar values,
  as in Rust). Rust `str::len` is the UTF-8 byte length, modelled by
  `rustLen`. Rust `str::trim` strips characters with the Unicode
  `White_Space` property on both ends, modelled by `rustTrim` /
  `rustIsWhitespace` (the complete `White_Space` list).
* The regular expression `(?i)\b\d{1,2}\s*[C-X]\s*[A-Z]{2}\s*\d{2,10}\b`
  from `is_likely_mgrs` is modelled by `mgrsSearch` below. The Rust `regex`
  crate runs with Unicode classes on by default: `\s` is `White_Space`
  (modelled completely), `\d` is `\p{Nd}` and the word characters used by
  `\b` include all alphanumerics. `\p{Nd}` and the word-character class are
  modelled on the sub-alphabet consisting of ASCII together with the
  Arabic-Indic digit block U+0660–U+0669 (which belongs to `Nd`); every
  concrete string evaluated in this development stays inside that
  sub-alphabet, where the model agrees exactly with the crate. All
  universally-quantified theorems below are insensitive to the extension of
  these classes: they either treat the classifier as an opaque boolean test
  or rely only on the outer conjunctive structure of `is_likely_mgrs`.
* The per-alignment matching of the pattern is deterministic because the
  character classes `\s`, `\d`, `[C-X]`, `[A-Z]` are pairwise disjoint and
  each quantifier is followed by a class disjoint from the quantified one,
  so greedy consumption of each maximal run is complete; `mgrsSearch` tries
  every start position, which yields exactly the existential `is_match`
  semantics.
* `csv::StringRecord`s are `List String`; the CSV reader, writer, CLI and
  the `geoconvert` crate are external collaborators (spec §1/§2) and appear
  only at the boundary: parsed records are inputs, emitted records are
  events, and `Mgrs::parse_str`/`to_latlon`/`to_string` is an abstract
  parameter `parse : String → Option (String × String)` producing the
  decimal string representations, or `none` on parse failure.
* The Rust indexing `column_scores[col_idx] += 1` panics when out of
  bounds; a panic aborts the process. This is modelled with `Except Unit`:
  `Except.error ()` is the panic.
-/

/-- Unicode `White_Space` property, exactly as tested by Rust
`char::is_whitespace` and by `\s` of the `regex` crate (Unicode mode). -/
def rustIsWhitespace (c : Char) : Bool :=
  c.toNat = 0x09 || c.toNat = 0x0A || c.toNat = 0x0B || c.toNat = 0x0C ||
  c.toNat = 0x0D || c.toNat = 0x20 || c.toNat = 0x85 || c.toNat = 0xA0 ||
  c.toNat = 0x1680 || (0x2000 ≤ c.toNat && c.toNat ≤ 0x200A) ||
  c.toNat = 0x2028 || c.toNat = 0x2029 || c.toNat = 0x202F ||
  c.toNat = 0x205F || c.toNat = 0x3000

/-- Decimal digit class `\d` = `\p{Nd}` of the `regex` crate, modelled on
ASCII `0-9` together with the Arabic-Indic digits U+0660–U+0669 (both blocks
belong to `Nd`; see the header note on the modelled sub-alphabet). -/
def regexIsDigit (c : Char) : Bool :=
  c.isDigit || (0x660 ≤ c.toNat && c.toNat ≤ 0x669)

/-- Word characters, as used by the `\b` assertion of the `regex` crate,
restricted to the modelled sub-alphabet: letters, decimal digits and
underscore. -/
def regexIsWordChar (c : Char) : Bool :=
  c.isAlpha || regexIsDigit c || c = '_'

/-- Case-insensitive `[C-X]`: the latitude-band letter class of the
pattern in `is_likely_mgrs`. Note the contiguous ASCII range, with no
exclusion of `I` or `O`. -/
def isBandLetter (c : Char) : Bool :=
  ('C' ≤ c && c ≤ 'X') || ('c' ≤ c && c ≤ 'x')

/-- Case-insensitive `[A-Z]`: an ASCII letter of either case. -/
def isSquareLetter (c : Char) : Bool :=
  c.isAlpha

/-- Number of UTF-8 bytes encoding a scalar value, as in Rust. -/
def utf8Size (c : Char) : Nat :=
  if c.toNat < 0x80 then 1
  else if c.toNat < 0x800 then 2
  else if c.toNat < 0x10000 then 3
  else 4

/-- Rust `str::len`: the UTF-8 byte length of the string. -/
def rustLen (s : String) : Nat :=
  s.data.foldl (fun n c => n + utf8Size c) 0

/-- Rust `str::trim`: strip `White_Space` characters from both ends. -/
def rustTrim (s : String) : String :=
  ⟨((s.data.dropWhile rustIsWhitespace).reverse.dropWhile rustIsWhitespace).reverse⟩

/-- Length of the longest prefix of `l` whose characters satisfy `p`. -/
def countLeading (p : Char → Bool) : List Char → Nat
  | [] => 0
  | c :: cs => if p c then countLeading p cs + 1 else 0

/-- One alignment of `(?i)\b\d{1,2}\s*[C-X]\s*[A-Z]{2}\s*\d{2,10}\b` whose
`\d{1,2}` group starts at the head of `l` (the leading `\b` is checked by
the caller).  Each maximal run is consumed greedily, which is complete here
(header note). -/
def matchCore (l : List Char) : Bool :=
  let r0 := countLeading regexIsDigit l
  if r0 = 0 || 2 < r0 then false
  else
    match (l.drop r0).dropWhile rustIsWhitespace with
    | [] => false
    | b :: l2 =>
      if !isBandLetter b then false
      else
        match l2.dropWhile rustIsWhitespace with
        | c1 :: c2 :: l4 =>
          if !(isSquareLetter c1 && isSquareLetter c2) then false
          else
            let l5 := l4.dropWhile rustIsWhitespace
            let r1 := countLeading regexIsDigit l5
            if r1 < 2 || 10 < r1 then false
            else
              match l5.drop r1 with
              | [] => true
              | d :: _ => !regexIsWordChar d
        | _ => false

/-- Search for a match of the pattern at every start position; `prev` is
the character just before the current position (`none` at the start of the
string), used for the leading word-boundary test. -/
def mgrsSearch (prev : Option Char) : List Char → Bool
  | [] => false
  | c :: cs =>
    ((match prev with
      | none => true
      | some p => !regexIsWordChar p) && matchCore (c :: cs))
    || mgrsSearch (some c) cs

/-- Embedding of `is_likely_mgrs` (src/main.rs:21-24): the pattern must
match somewhere in the string, and the trimmed byte length must be at
least 7. -/
def is_likely_mgrs (value : String) : Bool :=
  mgrsSearch none value.data && decide (7 ≤ rustLen (rustTrim value))

/-- Embedding of the normalization inside `convert_mgrs_to_latlon`
(src/main.rs:27): `mgrs_str.replace(" ", "")` with the single-character
pattern `" "` removes exactly the occurrences of U+0020. -/
def normalize_mgrs (s : String) : String :=
  ⟨s.data.filter (fun c => c ≠ ' ')⟩

/-- Embedding of `convert_mgrs_to_latlon` (src/main.rs:26-33): normalize,
then call the external capability (`Mgrs::parse_str` / `to_latlon`,
composed with the decimal `to_string` of both coordinates), which is the
abstract parameter `parse`. -/
def convert_mgrs_to_latlon (parse : String → Option (String × String))
    (mgrs_str : String) : Option (String × String) :=
  parse (normalize_mgrs mgrs_str)

/-- One step of the scoring loop body (src/main.rs:45-47): trim the field,
classify it, and on a positive classification increment the score at the
field's column index. The Rust indexing `column_scores[col_idx] += 1`
panics when `col_idx` is out of bounds: `Except.error ()` models the
panic. -/
def scoreField (scores : List Nat) (ci : Nat) (field : String) :
    Except Unit (List Nat) :=
  if is_likely_mgrs (rustTrim field) then
    if ci < scores.length then
      Except.ok (scores.set ci (scores.getD ci 0 + 1))
    else Except.error ()
  else Except.ok scores

/-- The inner loop `for (col_idx, field) in record.iter().enumerate()`
(src/main.rs:44), with the enumeration index threaded explicitly. -/
def scoreFields (scores : List Nat) (ci : Nat) :
    List String → Except Unit (List Nat)
  | [] => Except.ok scores
  | f :: fs =>
    match scoreField scores ci f with
    | Except.error e => Except.error e
    | Except.ok sc => scoreFields sc (ci + 1) fs

/-- The outer loop `for record in records.iter().take(100)`
(src/main.rs:43); the caller passes the already-sampled prefix. -/
def scoreRecords (scores : List Nat) :
    List (List String) → Except Unit (List Nat)
  | [] => Except.ok scores
  | r :: rs =>
    match scoreFields scores 0 r with
    | Except.error e => Except.error e
    | Except.ok sc => scoreRecords sc rs

/-- The score table built by `detect_mgrs_column` (src/main.rs:40-49):
`vec![0; records[0].len()]` scored over the first 100 records; `ok []`
(no scoring) for an empty record list, matching the early return. -/
def scoresOf (records : List (List String)) : Except Unit (List Nat) :=
  match records with
  | [] => Except.ok []
  | r0 :: _ => scoreRecords (List.replicate r0.length 0) (records.take 100)

/-- One folding step of Rust `Iterator::max_by_key` keyed on the second
component: the new element `p` replaces the current maximum `q` whenever
its key is greater than or equal to `q`'s. -/
def maxStep (acc : Option (Nat × Nat)) (p : Nat × Nat) : Option (Nat × Nat) :=
  match acc with
  | none => some p
  | some q => if q.2 ≤ p.2 then some p else some q

/-- Rust `Iterator::max_by_key` over the enumerated score table
(src/main.rs:51-54). Its contract: "If several elements are equally
maximum, the last element is returned" — hence `maxStep` prefers the new
element on equal keys. -/
def maxByKeyLast (l : List (Nat × Nat)) : Option (Nat × Nat) :=
  l.foldl maxStep none

/-- The selection chain `.max_by_key(...).filter(|(_, score)| *score > 0)
.map(|(idx, _)| idx)` (src/main.rs:51-56). -/
def pickColumn (scores : List Nat) : Option Nat :=
  match maxByKeyLast scores.enum with
  | none => none
  | some (i, s) => if 0 < s then some i else none

/-- Embedding of `detect_mgrs_column` (src/main.rs:35-57). `Except.error ()`
is the index-out-of-bounds panic of the scoring loop. -/
def detect_mgrs_column (records : List (List String)) :
    Except Unit (Option Nat) :=
  match records with
  | [] => Except.ok none
  | _ :: _ =>
    match scoresOf records with
    | Except.error e => Except.error e
    | Except.ok scores => Except.ok (pickColumn scores)

/-- Maximum of a score table (0 when empty); used to state the spec's
"the maximum score is zero" condition. -/
def maxScore (scores : List Nat) : Nat :=
  scores.foldr Nat.max 0

/-- Embedding of the per-row conversion (src/main.rs:92-107): fetch the
detected column (`record.get(mgrs_column).unwrap_or("")`), trim, gate on
non-emptiness and the classifier, convert via the external capability, and
append the two result fields to the unchanged input fields. -/
def processRow (parse : String → Option (String × String)) (col : Nat)
    (record : List String) : List String :=
  let mgrsValue := rustTrim (record.getD col "")
  let latLon :=
    if !mgrsValue.isEmpty && is_likely_mgrs mgrsValue then
      match convert_mgrs_to_latlon parse mgrsValue with
      | some p => p
      | none => ("", "")
    else ("", "")
  record ++ [latLon.1, latLon.2]

/-- Observable output actions of `process_csv`, in program order: creating
the output destination (src/main.rs:75-82), writing one record
(headers or data, src/main.rs:89/109), and printing the final summary
line with the record count and detected column (src/main.rs:116-117). -/
inductive Event where
  | createOutput : Event
  | writeRecord : List String → Event
  | summary : Nat → Nat → Event
deriving DecidableEq, Repr

/-- Embedding of `process_csv` (src/main.rs:59-120) over the parsed header
and records (CSV reading is an external collaborator). The result is the
ordered list of output actions together with the fatal error, if any:
detection runs before any output action, so on the `None` branch
(`context "No MGRS-like column detected in the CSV file"`) and on the
scoring panic the action list is empty. -/
def processCsv (parse : String → Option (String × String))
    (headers : List String) (records : List (List String)) :
    List Event × Option String :=
  match detect_mgrs_column records with
  | Except.error _ => ([], some "panicked: index out of bounds")
  | Except.ok none => ([], some "No MGRS-like column detected in the CSV file")
  | Except.ok (some col) =>
    (Event.createOutput ::
      Event.writeRecord (headers ++ ["Latitude", "Longitude"]) ::
      (records.map (fun r => Event.writeRecord (processRow parse col r)) ++
        [Event.summary records.length col]),
      none)

/-! ## Helper lemmas about the argmax fold -/


lemma maxStep_some (q p : Nat × Nat) :
    maxStep (some q) p = some (if q.2 ≤ p.2 then p else q) := by
  simp only [maxStep]
  split_ifs <;> rfl

lemma foldl_maxStep_ne_none (l : List (Nat × Nat)) :
    ∀ q, l.foldl maxStep (some q) ≠ none := by
  induction l with
  | nil => intro q h; exact Option.noConfusion h
  | cons p l ih =>
    intro q
    rw [List.foldl_cons, maxStep_some]
    exact ih _

lemma maxByKeyLast_eq_none_iff (l : List (Nat × Nat)) :
    maxByKeyLast l = none ↔ l = [] := by
  constructor
  · intro h
    cases l with
    | nil => rfl
    | cons p l =>
      exfalso
      rw [maxByKeyLast, List.foldl_cons] at h
      exact foldl_maxStep_ne_none l p h
  · rintro rfl; rfl

lemma maxByKeyLast_enum_spec (scores : List Nat) :
    ∀ i s, maxByKeyLast scores.enum = some (i, s) →
      i < scores.length ∧ scores.getD i 0 = s ∧
      (∀ j, j < scores.length → scores.getD j 0 ≤ s) ∧
      (∀ j, i < j → j < scores.length → scores.getD j 0 < s) := by
  induction scores using List.reverseRecOn with
  | nil => intro i s h; exact absurd h (by simp [maxByKeyLast])
  | append_singleton xs x ih =>
    intro i s h
    rw [maxByKeyLast, List.enum_append, List.foldl_append] at h
    have henum : List.enumFrom xs.length [x] = [(xs.length, x)] := rfl
    rw [henum] at h
    cases hmb : xs.enum.foldl maxStep none with
    | none =>
      have hxe : xs.enum = [] := (maxByKeyLast_eq_none_iff _).mp hmb
      have hxs : xs = [] := by
        have hlen := List.enum_length (l := xs)
        rw [hxe] at hlen
        exact List.length_eq_zero.mp hlen.symm
      subst hxs
      rw [hmb] at h
      simp only [List.foldl_cons, List.foldl_nil, maxStep] at h
      injection h with h1
      injection h1 with h2 h3
      subst h2; subst h3
      refine ⟨by simp, by simp, ?_, ?_⟩
      · intro j hj
        simp only [List.nil_append, List.length_singleton] at hj
        interval_cases j
        simp
      · intro j hj hj2
        simp only [List.nil_append, List.length_singleton] at hj2
        omega
    | some q =>
      obtain ⟨i1, s1⟩ := q
      rw [hmb] at h
      obtain ⟨hi1, hgd1, hub1, hlast1⟩ := ih i1 s1 hmb
      rw [List.foldl_cons, List.foldl_nil, maxStep_some] at h
      by_cases hcmp : s1 ≤ x
      · rw [if_pos hcmp] at h
        injection h with h1
        injection h1 with h2 h3
        subst h2; subst h3
        refine ⟨by simp, ?_, ?_, ?_⟩
        · rw [List.getD_append_right xs [x] 0 xs.length (le_refl _)]
          simp
        · intro j hj
          rw [List.length_append, List.length_singleton] at hj
          rcases Nat.lt_succ_iff_lt_or_eq.mp hj with hj | rfl
          · rw [List.getD_append xs [x] 0 j hj]
            exact le_trans (hub1 j hj) hcmp
          · rw [List.getD_append_right xs [x] 0 xs.length (le_refl _)]
            simp
        · intro j hj hj2
          rw [List.length_append, List.length_singleton] at hj2
          omega
      · rw [if_neg hcmp] at h
        injection h with h1
        injection h1 with h2 h3
        subst h2; subst h3
        push_neg at hcmp
        refine ⟨?_, ?_, ?_, ?_⟩
        · rw [List.length_append, List.length_singleton]; omega
        · rw [List.getD_append xs [x] 0 i1 hi1]; exact hgd1
        · intro j hj
          rw [List.length_append, List.length_singleton] at hj
          rcases Nat.lt_succ_iff_lt_or_eq.mp hj with hj | rfl
          · rw [List.getD_append xs [x] 0 j hj]
            exact hub1 j hj
          · rw [List.getD_append_right xs [x] 0 xs.length (le_refl _)]
            simpa using le_of_lt hcmp
        · intro j hj hj2
          rw [List.length_append, List.length_singleton] at hj2
          rcases Nat.lt_succ_iff_lt_or_eq.mp hj2 with hj2 | rfl
          · rw [List.getD_append xs [x] 0 j hj2]
            exact hlast1 j hj hj2
          · rw [List.getD_append_right xs [x] 0 xs.length (le_refl _)]
            simpa using hcmp

lemma le_maxScore_of_mem {x : Nat} {l : List Nat} (h : x ∈ l) :
    x ≤ maxScore l := by
  induction l with
  | nil => cases h
  | cons a l ih =>
    rcases List.mem_cons.mp h with rfl | h
    · exact Nat.le_max_left _ _
    · exact le_trans (ih h) (Nat.le_max_right _ _)

lemma maxScore_le {l : List Nat} {s : Nat} (h : ∀ x ∈ l, x ≤ s) :
    maxScore l ≤ s := by
  induction l with
  | nil => exact Nat.zero_le _
  | cons a l ih =>
    exact Nat.max_le.mpr
      ⟨h a (List.mem_cons_self a l), ih fun x hx => h x (List.mem_cons_of_mem a hx)⟩

lemma maxByKeyLast_enum_maxScore (scores : List Nat) (i s : Nat)
    (h : maxByKeyLast scores.enum = some (i, s)) : maxScore scores = s := by
  obtain ⟨hi, hgd, hub, _⟩ := maxByKeyLast_enum_spec scores i s h
  refine le_antisymm ?_ ?_
  · refine maxScore_le fun x hx => ?_
    obtain ⟨j, hj, rfl⟩ := List.mem_iff_getElem.mp hx
    rw [← List.getD_eq_getElem scores 0 hj]
    exact hub j hj
  · rw [← hgd, List.getD_eq_getElem scores 0 hi]
    exact le_maxScore_of_mem (List.getElem_mem hi)

lemma pickColumn_eq_none_iff (scores : List Nat) :
    pickColumn scores = none ↔ maxScore scores = 0 := by
  unfold pickColumn
  split
  next h =>
    have hxe : scores.enum = [] := (maxByKeyLast_eq_none_iff _).mp h
    have hs : scores = [] := by
      have hlen := List.enum_length (l := scores)
      rw [hxe] at hlen
      exact List.length_eq_zero.mp hlen.symm
    subst hs
    simp [maxScore]
  next i s h =>
    have hms := maxByKeyLast_enum_maxScore scores i s h
    split_ifs with hpos
    · exact iff_of_false (by simp) (by omega)
    · exact iff_of_true rfl (by omega)

/-! ## Helper lemmas about the scoring loop -/

lemma scoreField_length {scores : List Nat} {ci : Nat} {f : String}
    {sc : List Nat} (h : scoreField scores ci f = Except.ok sc) :
    sc.length = scores.length := by
  unfold scoreField at h
  split_ifs at h with h1 h2
  · injection h with h3
    subst h3
    exact List.length_set ..
  · injection h with h3
    subst h3
    rfl

lemma scoreFields_length :
    ∀ (fs : List String) (scores : List Nat) (ci : Nat) (sc : List Nat),
      scoreFields scores ci fs = Except.ok sc → sc.length = scores.length := by
  intro fs
  induction fs with
  | nil =>
    intro scores ci sc h
    injection h with h1
    subst h1
    rfl
  | cons f fs ih =>
    intro scores ci sc h
    unfold scoreFields at h
    cases hf : scoreField scores ci f with
    | error e => rw [hf] at h; exact absurd h (by simp)
    | ok sc1 =>
      rw [hf] at h
      rw [ih sc1 (ci + 1) sc h]
      exact scoreField_length hf

lemma scoreRecords_length :
    ∀ (rs : List (List String)) (scores : List Nat) (sc : List Nat),
      scoreRecords scores rs = Except.ok sc → sc.length = scores.length := by
  intro rs
  induction rs with
  | nil =>
    intro scores sc h
    injection h with h1
    subst h1
    rfl
  | cons r rs ih =>
    intro scores sc h
    unfold scoreRecords at h
    cases hf : scoreFields scores 0 r with
    | error e => rw [hf] at h; exact absurd h (by simp)
    | ok sc1 =>
      rw [hf] at h
      rw [ih sc1 sc h]
      exact scoreFields_length r scores 0 sc1 hf

lemma scoreFields_ok :
    ∀ (fs : List String) (scores : List Nat) (ci : Nat),
      ci + fs.length ≤ scores.length →
      ∃ sc, scoreFields scores ci fs = Except.ok sc := by
  intro fs
  induction fs with
  | nil => intro scores ci _; exact ⟨scores, rfl⟩
  | cons f fs ih =>
    intro scores ci hlen
    rw [List.length_cons] at hlen
    have hci : ci < scores.length := by omega
    unfold scoreFields
    cases hf : scoreField scores ci f with
    | error e =>
      exfalso
      unfold scoreField at hf
      split_ifs at hf
    | ok sc1 =>
      have hl1 : sc1.length = scores.length := scoreField_length hf
      have : (ci + 1) + fs.length ≤ sc1.length := by omega
      obtain ⟨sc, hsc⟩ := ih sc1 (ci + 1) this
      exact ⟨sc, hsc⟩

lemma scoreRecords_ok :
    ∀ (rs : List (List String)) (scores : List Nat),
      (∀ r ∈ rs, r.length ≤ scores.length) →
      ∃ sc, scoreRecords scores rs = Except.ok sc := by
  intro rs
  induction rs with
  | nil => intro scores _; exact ⟨scores, rfl⟩
  | cons r rs ih =>
    intro scores hlen
    have hr : r.length ≤ scores.length := hlen r (List.mem_cons_self r rs)
    obtain ⟨sc1, hsc1⟩ := scoreFields_ok r scores 0 (by omega)
    have hl1 : sc1.length = scores.length := scoreFields_length r scores 0 sc1 hsc1
    obtain ⟨sc, hsc⟩ := ih sc1 fun r2 hr2 => by
      rw [hl1]
      exact hlen r2 (List.mem_cons_of_mem r hr2)
    refine ⟨sc, ?_⟩
    unfold scoreRecords
    rw [hsc1]
    exact hsc

/-! ## Helper lemmas about detection and the pipeline -/

lemma detect_eq_of_scoresOf {records : List (List String)} {scores : List Nat}
    (hs : scoresOf records = Except.ok scores) (hne : records ≠ []) :
    detect_mgrs_column records = Except.ok (pickColumn scores) := by
  cases records with
  | nil => exact absurd rfl hne
  | cons r0 rs =>
    unfold detect_mgrs_column
    rw [hs]

lemma detect_none_iff {records : List (List String)} {scores : List Nat}
    (hs : scoresOf records = Except.ok scores) :
    detect_mgrs_column records = Except.ok none ↔
      records = [] ∨ maxScore scores = 0 := by
  cases records with
  | nil => simp [detect_mgrs_column]
  | cons r0 rs =>
    rw [detect_eq_of_scoresOf hs (by simp)]
    constructor
    · intro h
      injection h with h1
      exact Or.inr ((pickColumn_eq_none_iff scores).mp h1)
    · rintro (h | h)
      · exact absurd h (by simp)
      · rw [(pickColumn_eq_none_iff scores).mpr h]

lemma processCsv_of_detect_none
    (parse : String → Option (String × String)) (headers : List String)
    {records : List (List String)}
    (h : detect_mgrs_column records = Except.ok none) :
    processCsv parse headers records =
      ([], some "No MGRS-like column detected in the CSV file") := by
  unfold processCsv
  rw [h]

/-! ## Claim C1 -/

/-- Claim C1, counterexample. Two columns tie with equal, maximal, nonzero
scores (`[1, 1]`), yet `detect_mgrs_column` returns column index 1, not the
lowest index 0: `max_by_key` keeps the last maximal element. -/
theorem c1_counterexample :
    scoresOf [["33TWN1234567", "44XAB1234567"]] = Except.ok [1, 1] ∧
    detect_mgrs_column [["33TWN1234567", "44XAB1234567"]] =
      Except.ok (some 1) :=
  ⟨rfl, rfl⟩

/-- Claim C1, amended: when two or more columns have equal, maximal,
nonzero classifier scores, `detect_mgrs_column` returns the HIGHEST column
index among the tied columns (every column after the returned one scores
strictly less, and no column scores more). -/
theorem c1_amended_tie_highest (records : List (List String))
    (scores : List Nat) (i : Nat)
    (hs : scoresOf records = Except.ok scores)
    (hd : detect_mgrs_column records = Except.ok (some i)) :
    i < scores.length ∧ 0 < scores.getD i 0 ∧
    (∀ j, j < scores.length → scores.getD j 0 ≤ scores.getD i 0) ∧
    (∀ j, i < j → j < scores.length → scores.getD j 0 < scores.getD i 0) := by
  have hne : records ≠ [] := by
    rintro rfl
    rw [show detect_mgrs_column [] = Except.ok none from rfl] at hd
    injection hd with h1
    exact Option.noConfusion h1
  rw [detect_eq_of_scoresOf hs hne] at hd
  injection hd with h1
  unfold pickColumn at h1
  split at h1
  · exact absurd h1 (by simp)
  · rename_i i2 s hm
    by_cases hpos : 0 < s
    · rw [if_pos hpos] at h1
      injection h1 with h2
      subst h2
      obtain ⟨ha, hb, hc, hstrict⟩ := maxByKeyLast_enum_spec scores i2 s hm
      rw [hb]
      exact ⟨ha, hpos, hc, hstrict⟩
    · rw [if_neg hpos] at h1
      exact absurd h1 (by simp)

/-- Claim C1, witness for the amended theorem at the tied table `[1, 1]`
of the counterexample input. -/
theorem c1_amended_witness :
    1 < ([1, 1] : List Nat).length ∧ 0 < ([1, 1] : List Nat).getD 1 0 := by
  have h := c1_amended_tie_highest [["33TWN1234567", "44XAB1234567"]]
    [1, 1] 1 rfl rfl
  exact ⟨h.1, h.2.1⟩

/-! ## Claim C2 -/

/-- Claim C2, counterexample. The pattern's band-letter class is the
contiguous range `[C-X]`, which contains `I` and `O`: both strings below
have `I` (resp. `O`) in the latitude-band position, match the pattern in no
other way (the only word-boundary-preceded digit run is the leading "33"),
and are classified positive, contradicting the claimed exclusion. -/
theorem c2_counterexample :
    is_likely_mgrs "33IWN1234567" = true ∧
    is_likely_mgrs "33OWN1234567" = true :=
  ⟨rfl, rfl⟩

/-- Claim C2, amended: the classifier's band-letter set is the full
contiguous range `C` through `X` (case-insensitive), with `I` and `O`
included rather than excluded: every letter of that range in the band
position yields a positive classification. -/
theorem c2_amended_band_range :
    ∀ c ∈ "CDEFGHIJKLMNOPQRSTUVWX".data,
      is_likely_mgrs
        (String.mk ['3', '3', c, 'W', 'N', '1', '2', '3', '4', '5', '6', '7']) =
        true := by
  decide

/-- Claim C2, witness for the amended theorem at the band letter `I`. -/
theorem c2_amended_witness :
    is_likely_mgrs
      (String.mk ['3', '3', 'I', 'W', 'N', '1', '2', '3', '4', '5', '6', '7']) =
      true :=
  c2_amended_band_range 'I' (by decide)

/-! ## Claim C3 -/

/-- Claim C3, counterexample. A candidate value containing an internal tab
is non-empty and classifier-positive, yet the string handed to the external
conversion capability still contains whitespace: the normalization
`replace(" ", "")` removes only U+0020, not every whitespace character.
The instrumenting capability below answers `("WS", "WS")` exactly when its
argument contains a whitespace character, and that answer reaches the
output row. -/
theorem c3_counterexample :
    is_likely_mgrs "33T\tWN1234567" = true ∧
    processRow
        (fun s => if s.data.any rustIsWhitespace then some ("WS", "WS") else none)
        0 ["33T\tWN1234567"] =
      ["33T\tWN1234567", "WS", "WS"] :=
  ⟨rfl, rfl⟩

/-- Claim C3, amended: the normalization performed before invoking the
external conversion capability removes exactly the ASCII space characters
(U+0020): no space remains in the normalized string, and every other
character — other whitespace included — is preserved with its
multiplicity. -/
theorem c3_amended_normalize_spaces_only (s : String) :
    (normalize_mgrs s).data.count ' ' = 0 ∧
    ∀ c, c ≠ ' ' → (normalize_mgrs s).data.count c = s.data.count c := by
  constructor
  · rw [List.count_eq_zero]
    intro hmem
    rcases List.mem_filter.mp hmem with ⟨_, hdec⟩
    simp at hdec
  · intro c hc
    exact List.count_filter (by simp [hc])

/-- Claim C3, witness for the amended theorem: the count of a non-space
character is preserved by normalization on a concrete input. -/
theorem c3_amended_witness :
    (normalize_mgrs "3 3").data.count '3' = ("3 3").data.count '3' :=
  (c3_amended_normalize_spaces_only "3 3").2 '3' (by decide)

/-! ## Claim C4 -/

/-- Claim C4, confirmed: whenever column detection fails (no rows, or a
score table whose maximum is zero), `process_csv` aborts with the fatal
"No MGRS-like column detected in the CSV file" error and its list of output
actions is empty: the output destination is never created and no record is
written, because detection runs before the output file is opened. -/
theorem c4_no_output_when_no_column
    (parse : String → Option (String × String)) (headers : List String)
    (records : List (List String)) (scores : List Nat)
    (hs : scoresOf records = Except.ok scores)
    (h : records = [] ∨ maxScore scores = 0) :
    processCsv parse headers records =
      ([], some "No MGRS-like column detected in the CSV file") :=
  processCsv_of_detect_none parse headers ((detect_none_iff hs).mpr h)

/-- Claim C4, witness at a one-row dataset with no classifier-positive
field. -/
theorem c4_witness :
    processCsv (fun _ => none) ["h"] [["x"]] =
      ([], some "No MGRS-like column detected in the CSV file") :=
  c4_no_output_when_no_column (fun _ => none) ["h"] [["x"]] [0] rfl
    (Or.inr rfl)

/-! ## Claim C5 -/

/-- Claim C5, confirmed: `detect_mgrs_column` returns `none` exactly when
the record list is empty or the maximum score over the sampled prefix is
zero (so it never falls back to column 0), and in `process_csv` the `none`
result becomes the fatal run-aborting error rather than continuing. -/
theorem c5_detect_none_characterization
    (records : List (List String)) (scores : List Nat)
    (parse : String → Option (String × String)) (headers : List String)
    (hs : scoresOf records = Except.ok scores) :
    (detect_mgrs_column records = Except.ok none ↔
      records = [] ∨ maxScore scores = 0) ∧
    (detect_mgrs_column records = Except.ok none →
      processCsv parse headers records =
        ([], some "No MGRS-like column detected in the CSV file")) :=
  ⟨detect_none_iff hs, fun h => processCsv_of_detect_none parse headers h⟩

/-- Claim C5, witness at a one-row dataset whose only field is
classifier-negative. -/
theorem c5_witness :
    (detect_mgrs_column [["x"]] = Except.ok none ↔
      ([["x"]] : List (List String)) = [] ∨ maxScore [0] = 0) ∧
    (detect_mgrs_column [["x"]] = Except.ok none →
      processCsv (fun _ => none) [] [["x"]] =
        ([], some "No MGRS-like column detected in the CSV file")) :=
  c5_detect_none_characterization [["x"]] [0] (fun _ => none) [] rfl

/-! ## Claim C6 -/

/-- Claim C6, confirmed: for every row whose designated-column value trims
to the empty string (empty or whitespace-only) or fails the plausibility
classifier, the emitted row is exactly the input fields in order followed
by two empty strings — no conversion is attempted (the result does not
depend on the external capability) and no other field is altered. -/
theorem c6_blank_propagation
    (parse : String → Option (String × String)) (col : Nat)
    (record : List String)
    (h : rustTrim (record.getD col "") = "" ∨
         is_likely_mgrs (rustTrim (record.getD col "")) = false) :
    processRow parse col record = record ++ ["", ""] := by
  rcases h with h | h
  · simp only [processRow]
    rw [h]
    rfl
  · simp only [processRow]
    rw [h, Bool.and_false]
    rfl

/-- Claim C6, witness at a row whose designated column holds a
classifier-negative value. -/
theorem c6_witness :
    processRow (fun _ => none) 1 ["id", "zzz"] = ["id", "zzz", "", ""] :=
  c6_blank_propagation (fun _ => none) 1 ["id", "zzz"] (Or.inr rfl)

/-! ## Claim C7 -/

/-- Claim C7, confirmed: the column scores and the detected column depend
only on the first 100 records — any two record lists, each at least 100
records long, that agree on their first 100 records produce the same
detection result; records beyond the 100th never affect it. -/
theorem c7_detect_uses_first_100 (rs1 rs2 : List (List String))
    (h : rs1.take 100 = rs2.take 100)
    (h1 : 100 ≤ rs1.length) (h2 : 100 ≤ rs2.length) :
    detect_mgrs_column rs1 = detect_mgrs_column rs2 := by
  cases rs1 with
  | nil => simp at h1
  | cons a t1 =>
    cases rs2 with
    | nil => simp at h2
    | cons b t2 =>
      have head_eq : a = b := by
        rw [show (100 : Nat) = 99 + 1 from rfl, List.take_succ_cons,
          List.take_succ_cons] at h
        injection h
      subst head_eq
      simp only [detect_mgrs_column, scoresOf]
      rw [h]

/-- Claim C7, witness: two 101-record lists agreeing on the first 100
records but differing in the 101st yield the same detection result. -/
theorem c7_witness :
    detect_mgrs_column (List.replicate 100 ["x"] ++ [["y"]]) =
      detect_mgrs_column (List.replicate 100 ["x"] ++ [["z"]]) := by
  refine c7_detect_uses_first_100 _ _ ?_ ?_ ?_
  · rw [List.take_left' (by simp), List.take_left' (by simp)]
  · simp
  · simp

/-! ## Claim C8 -/

/-- Claim C8, counterexample. The header declares two columns and the first
data row has only one field; the run does not handle the mismatching rows
by treating missing fields as empty — it aborts: the score table is sized
from the first record (one slot), and the second record's classifier-
positive second field makes the scoring loop index out of bounds, a panic
that kills the run before any row is processed. -/
theorem c8_counterexample :
    (["x"] : List String).length < (["a", "b"] : List String).length ∧
    processCsv (fun _ => none) ["a", "b"] [["x"], ["y", "33TWN1234567"]] =
      ([], some "panicked: index out of bounds") :=
  ⟨by decide, rfl⟩

/-- Claim C8, amended: at the conversion stage the claim holds — fetching
the detected column out of range for a short row yields the empty value,
and the row is emitted as its fields followed by two empty strings rather
than being treated as a fatal malformed record; but during detection a
sampled row with more classifier-positive field positions than the first
record's width panics (see the counterexample), and rows whose field count
differs from the header are rejected earlier by the external CSV reader. -/
theorem c8_amended_short_row_blank
    (parse : String → Option (String × String)) (col : Nat)
    (record : List String) (h : record.length ≤ col) :
    processRow parse col record = record ++ ["", ""] := by
  have hget : record.getD col "" = "" := List.getD_eq_default record "" h
  simp only [processRow]
  rw [hget]
  rfl

/-- Claim C8, witness for the amended theorem: a one-field row with the
detected column out of range is passed through with two blanks. -/
theorem c8_amended_witness :
    processRow (fun _ => none) 5 ["a"] = ["a", "", ""] :=
  c8_amended_short_row_blank (fun _ => none) 5 ["a"] (by decide)

/-! ## Claim C9 -/

/-- Claim C9, counterexample. The length check of `is_likely_mgrs` is
`value.trim().len() >= 7`, a UTF-8 BYTE count, not a character count: the
string below has six characters (its first, the Arabic-Indic digit
U+0663, is a `\d` digit and occupies two bytes), so its trimmed length in
characters is below 7, yet the classifier accepts it. -/
theorem c9_counterexample :
    (rustTrim "٣TWN12").data.length < 7 ∧ is_likely_mgrs "٣TWN12" = true :=
  ⟨by decide, rfl⟩

/-- Claim C9, amended: for every input string whose whitespace-trimmed
UTF-8 byte length (Rust `str::len`, which equals the character count on
ASCII input) is less than 7, the classifier returns false. -/
theorem c9_amended_short_reject (s : String)
    (h : rustLen (rustTrim s) < 7) : is_likely_mgrs s = false := by
  unfold is_likely_mgrs
  have hd : decide (7 ≤ rustLen (rustTrim s)) = false := by
    simp only [decide_eq_false_iff_not]
    omega
  rw [hd, Bool.and_false]

/-- Claim C9, witness for the amended theorem at a two-byte string. -/
theorem c9_amended_witness : is_likely_mgrs "hi" = false :=
  c9_amended_short_reject "hi" (by decide)

/-! ## Claim C10 -/

/-- Claim C10, confirmed: `detect_mgrs_column` sizes its score table from
the first record and indexes it at every classifier-positive field
position of every sampled record; when no record is longer than the first
record, every such index is in bounds and the function never reaches the
panic (`Except.error ()`) branch. -/
theorem c10_detect_no_panic (records : List (List String))
    (h : ∀ r ∈ records, r.length ≤ (records.headD []).length) :
    detect_mgrs_column records ≠ Except.error () := by
  cases records with
  | nil => simp [detect_mgrs_column]
  | cons r0 rs =>
    have hall : ∀ r ∈ (r0 :: rs).take 100,
        r.length ≤ (List.replicate r0.length (0 : Nat)).length := by
      intro r hr
      rw [List.length_replicate]
      have hmem := h r (List.take_subset 100 (r0 :: rs) hr)
      simpa using hmem
    obtain ⟨sc, hsc⟩ :=
      scoreRecords_ok ((r0 :: rs).take 100) (List.replicate r0.length 0) hall
    have hdet : detect_mgrs_column (r0 :: rs) = Except.ok (pickColumn sc) :=
      detect_eq_of_scoresOf (by simp only [scoresOf]; exact hsc) (by simp)
    rw [hdet]
    simp

/-- Claim C10, witness at a ragged dataset whose later record is not
longer than the first. -/
theorem c10_witness :
    detect_mgrs_column [["33TWN1234567", "b"], ["c"]] ≠ Except.error () :=
  c10_detect_no_panic [["33TWN1234567", "b"], ["c"]] (by decide)
